import Mathlib

/-!
Verification development for the migration-tools repository.

The repository migrates two record sets (users and images) from a legacy
relational schema to a redesigned target schema.  This file gives a shallow
embedding of the merge engine found in src/migration_tools/merge.py and the
pure transform helpers found in src/migration_tools/transform.py, and proves
the behavioural claims about it.

Modelling conventions:
* Database tables become Lean lists of row structures; a SQL upsert becomes a
  left fold of a per-row insert-or-overwrite step.
* Python datetime values become the PyDatetime structure: an integer wall
  clock reading together with an optional integer UTC offset (tz = none for a
  naive datetime).  datetime.utcnow() is modelled by an explicit now : Int
  parameter, fixed for the run.
* Row streams (SELECT ... ORDER BY ...) are passed in as lists, already in
  the query order produced by the source statements.
* Logging is not modelled; skip reasons are instead made observable through
  the ImageRowDecision type, which mirrors the sequential if/continue chain
  of merge_images row handling.
-/

/-- Per-section migration counters, mirroring MergeSectionResult in
transform.py (dataclass with processed/inserted/updated/skipped, all 0 by
default). -/
structure MergeSectionResult where
  processed : Nat
  inserted : Nat
  updated : Nat
  skipped : Nat
  deriving DecidableEq

/-- A Python datetime: an integer wall-clock reading plus an optional UTC
offset (none means a naive datetime, some off means tzinfo with utcoffset
off, so the UTC instant is wall - off). -/
structure PyDatetime where
  wall : Int
  tz : Option Int
  deriving DecidableEq

/-- A row of the legacy users table: SELECT id, username, hashed_password,
created_at FROM users. -/
structure SrcUser where
  id : Int
  username : String
  hashed_password : String
  created_at : Option PyDatetime
  deriving DecidableEq

/-- A row of the legacy images table: SELECT uuid, kind, label, file_name,
uploaded_by, uploaded_at, category, trace_id FROM images. -/
structure SrcImage where
  uuid : String
  kind : String
  label : Option String
  file_name : String
  uploaded_by : Option Int
  uploaded_at : Option PyDatetime
  category : Option String
  trace_id : Option String
  deriving DecidableEq

/-- A row of the target tbl_user table. -/
structure UserRow where
  id : Int
  username : String
  password : String
  phone : Option String
  privileges : List String
  created_at : PyDatetime
  updated_at : PyDatetime
  deriving DecidableEq

/-- A row of the target tbl_image table. -/
structure ImageRow where
  uuid : String
  user_id : Option Int
  aspect_id : String
  name : String
  description : String
  visibility : Int
  labels : List String
  file_name : String
  metadata_id : Option String
  created_at : PyDatetime
  updated_at : PyDatetime
  deriving DecidableEq

/-- A row of the target tbl_image_aspect table. -/
structure AspectRow where
  id : String
  name : String
  description : String
  ratio_width_unit : Int
  ratio_height_unit : Int
  deriving DecidableEq

/-- The state of the target database touched by the migration: the two
written tables, the aspect reference table, and the value of the sequence
backing tbl_user.id (as set by setval with is_called = true, so the next
organically generated identifier is user_id_seq + 1). -/
structure TargetDB where
  tbl_user : List UserRow
  tbl_image : List ImageRow
  tbl_image_aspect : List AspectRow
  user_id_seq : Int
  deriving DecidableEq

/-- The read-only legacy database: the users rows in the order produced by
ORDER BY id, and the images rows in the order produced by
ORDER BY uploaded_at, uuid. -/
structure SourceDB where
  users : List SrcUser
  images : List SrcImage
  deriving DecidableEq

/-- Runtime configuration (MergeConfig in merge.py); the two connection URLs
are connection mechanics and are not part of the embedding. -/
structure MergeConfig where
  batch_size : Nat
  dry_run : Bool
  deriving DecidableEq

/-- Combined result of the two migration sections (MergeResult in
merge.py). -/
structure MergeResult where
  users : MergeSectionResult
  images : MergeSectionResult
  deriving DecidableEq

/-! ## transform.py -/

/-- The fixed kind-to-aspect dictionary of transform.py, rendered as a
lookup function on the (already uppercased) key. -/
def KIND_TO_ASPECT (key : String) : Option String :=
  if key = "BACKGROUND" then some "card-background"
  else if key = "FRAME" then some "card-background"
  else if key = "CHARACTER" then some "card-background"
  else if key = "MASK" then some "card-background"
  else if key = "LABEL" then some "card-background"
  else if key = "PASSNAME" then some "sega-passname"
  else none

/-- Python str.upper(), modelled character-wise over the string contents
(structural recursion, so the kernel can evaluate it; agrees with CPython on
the ASCII kind names this repository handles). -/
def py_upper (s : String) : String := String.mk (s.data.map Char.toUpper)

/-- Python str.lower(), modelled character-wise. -/
def py_lower (s : String) : String := String.mk (s.data.map Char.toLower)

/-- Python str.strip(): drop leading and trailing whitespace. -/
def py_strip (s : String) : String :=
  String.mk
    (((s.data.dropWhile Char.isWhitespace).reverse.dropWhile
        Char.isWhitespace).reverse)

/-- derive_aspect_id from transform.py.  The Python function raises
UnknownAspectError on an unmapped kind; here the failure is an
Except.error carrying the formatted message (the repr decoration of the
f-string is elided, keeping the offending kind itself). -/
def derive_aspect_id (kind : String) : Except String String :=
  match KIND_TO_ASPECT (py_upper kind) with
  | some aspect => Except.ok aspect
  | none => Except.error ("未识别的图片类型: " ++ kind)

/-- build_image_labels from transform.py.  Python truthiness of a str is
non-emptiness (the empty string also stands in for a null column);
category is None or a string. -/
def build_image_labels (kind : String) (category : Option String) : List String :=
  let labels : List String := []
  let labels := if kind = "" then labels else labels ++ [py_lower kind]
  let labels :=
    match category with
    | none => labels
    | some c =>
      if c = "" then labels
      else
        let normalized := py_strip c
        if normalized = "" then labels else labels ++ [py_lower normalized]
  if labels = [] then ["unclassified"] else labels

/-- The labels rule exactly as the specification words it (for comparison
with build_image_labels): append the lowercased kind when the kind is
non-empty, then the lowercased trimmed category when the category is present
and non-empty after trimming; if nothing was appended, the single sentinel
element. -/
def buildLabelsSpec (kind : String) (category : Option String) : List String :=
  let ks : List String := if kind = "" then [] else [py_lower kind]
  let cs : List String :=
    match category with
    | none => []
    | some c => if py_strip c = "" then [] else [py_lower (py_strip c)]
  if ks ++ cs = [] then ["unclassified"] else ks ++ cs

/-- Helper for the Python str.title() calls: a cased character that follows
a non-cased character is uppercased, every other cased character is
lowercased.  The Bool argument records whether the previous character was
alphabetic. -/
def pyTitleAux : Bool → List Char → List Char
  | _, [] => []
  | prevAlpha, c :: cs =>
    let c2 := if c.isAlpha then (if prevAlpha then c.toLower else c.toUpper) else c
    c2 :: pyTitleAux c.isAlpha cs

/-- Python str.title() (ASCII-cased model). -/
def py_title (s : String) : String := String.mk (pyTitleAux false s.data)

/-- build_image_name from transform.py. -/
def build_image_name (label : Option String) (uuid : String) (kind : String) : String :=
  let fallback :=
    (if kind = "" then "Image" else py_title kind) ++ "-" ++ uuid
  match label with
  | none => fallback
  | some l =>
    if l = "" then fallback
    else if py_strip l = "" then fallback
    else py_strip l

/-- build_image_description from transform.py: first truthy, non-blank
candidate among label, category and the title-cased kind, else a fixed
fallback literal. -/
def build_image_description (label : Option String) (category : Option String)
    (kind : String) : String :=
  let pick : Option String → Option String := fun c =>
    match c with
    | none => none
    | some s =>
      if s = "" then none
      else if py_strip s = "" then none
      else some (py_strip s)
  let kindCand : Option String := if kind = "" then none else some (py_title kind)
  match pick label with
  | some r => r
  | none =>
    match pick category with
    | some r => r
    | none =>
      match pick kindCand with
      | some r => r
      | none => "Legacy image imported via migration-tools"

/-- normalize_privileges from transform.py: the input is ignored and every
migrated user receives exactly the single default role. -/
def normalize_privileges (_input : Option (List String)) : List String := ["NORMAL"]

/-! ## merge.py helpers -/

/-- _ensure_datetime from merge.py: a null timestamp becomes the current UTC
time, an aware timestamp is converted to UTC and stripped of its tzinfo, a
naive timestamp passes through unchanged. -/
def ensure_datetime (now : Int) (value : Option PyDatetime) : PyDatetime :=
  match value with
  | none => ⟨now, none⟩
  | some v =>
    match v.tz with
    | some off => ⟨v.wall - off, none⟩
    | none => v

/-- _adapt_user_row from merge.py. -/
def adapt_user_row (now : Int) (row : SrcUser) : UserRow :=
  { id := row.id
    username := row.username
    password := row.hashed_password
    phone := none
    privileges := normalize_privileges none
    created_at := ensure_datetime now row.created_at
    updated_at := ⟨now, none⟩ }

/-- _adapt_image_row from merge.py. -/
def adapt_image_row (row : SrcImage) (aspect_id : String) (now : Int) : ImageRow :=
  { uuid := row.uuid
    user_id := row.uploaded_by
    aspect_id := aspect_id
    name := build_image_name row.label row.uuid row.kind
    description := build_image_description row.label row.category row.kind
    visibility := 1
    labels := build_image_labels row.kind row.category
    file_name := row.file_name
    metadata_id := row.trace_id
    created_at := ensure_datetime now row.uploaded_at
    updated_at := ⟨now, none⟩ }

/-- _collect_existing_ids(conn, "tbl_user"): the set of user identifiers
present in the target, as the list of id column values. -/
def collect_existing_user_ids (t : List UserRow) : List Int := t.map UserRow.id

/-- _collect_existing_ids(conn, "tbl_image", column="uuid"). -/
def collect_existing_image_uuids (t : List ImageRow) : List String :=
  t.map ImageRow.uuid

/-! ## Generic upsert semantics

A SQL statement INSERT ... VALUES ... ON CONFLICT (k) DO UPDATE SET ...,
executed for a list of parameter rows, applies the rows one at a time: a row
whose key is absent is appended, a row whose key is present overwrites the
stored row according to the SET list.  upsertOne is that single-row step and
upsertMany the whole statement; key extracts the conflict key and upd old new
is the SET list applied to the stored row old with the excluded row new. -/

def upsertOne {α κ : Type} [DecidableEq κ] (key : α → κ) (upd : α → α → α)
    (t : List α) (e : α) : List α :=
  if t.any (fun r => decide (key r = key e)) then
    t.map (fun r => if key r = key e then upd r e else r)
  else t ++ [e]

def upsertMany {α κ : Type} [DecidableEq κ] (key : α → κ) (upd : α → α → α)
    (t : List α) (p : List α) : List α :=
  p.foldl (upsertOne key upd) t

/-- The SET list of _upsert_users: on conflict on id, overwrite username,
password, phone, privileges and updated_at from the excluded row; id is the
conflict key and created_at is not in the SET list, so the stored row keeps
its created_at.  With UserRow having exactly these fields this is "all of
the excluded row except created_at". -/
def userUpd (old new : UserRow) : UserRow := { new with created_at := old.created_at }

/-- _upsert_users from merge.py (the INSERT ... ON CONFLICT (id) DO UPDATE
statement executed for the whole payload; an empty payload is a no-op). -/
def upsert_users (t : List UserRow) (payload : List UserRow) : List UserRow :=
  upsertMany UserRow.id userUpd t payload

/-- The SET list of _upsert_images: on conflict on uuid, overwrite user_id,
aspect_id, name, description, visibility, labels, file_name, metadata_id and
updated_at; created_at is not in the SET list. -/
def imageUpd (old new : ImageRow) : ImageRow := { new with created_at := old.created_at }

/-- _upsert_images from merge.py. -/
def upsert_images (t : List ImageRow) (payload : List ImageRow) : List ImageRow :=
  upsertMany ImageRow.uuid imageUpd t payload

/-- _sync_sequence from merge.py: setval(seq, COALESCE((SELECT MAX(id) FROM
tbl_user), 0), true).  Returns the value the sequence is set to. -/
def sync_sequence (t : List UserRow) : Int :=
  match t.map UserRow.id with
  | [] => 0
  | x :: xs => xs.foldl max x

/-- The card-background aspect seed row of ensure_required_aspects. -/
def cardBackgroundAspect : AspectRow :=
  ⟨"card-background", "Card Background", "竖版卡片，符合ID-1卡片比例的图片", 768, 1220⟩

/-- The sega-passname aspect seed row of ensure_required_aspects. -/
def segaPassnameAspect : AspectRow :=
  ⟨"sega-passname", "SEGA Passname", "横版通行证，符合PASSNAME比例的图片", 338, 112⟩

/-- The two fixed aspect seed rows of ensure_required_aspects, in the
iteration order of the required dict. -/
def requiredAspects : List AspectRow := [cardBackgroundAspect, segaPassnameAspect]

/-- ensure_required_aspects from merge.py: query which of the two fixed
identifiers already exist, then INSERT ... ON CONFLICT (id) DO NOTHING the
missing ones. -/
def ensure_required_aspects (a : List AspectRow) : List AspectRow :=
  let missing := requiredAspects.filter
    (fun d => decide (d.id ∉ a.map AspectRow.id))
  missing.foldl
    (fun t d => if d.id ∈ t.map AspectRow.id then t else t ++ [d]) a

/-! ## merge_users -/

/-- The loop state of the merge_users row loop: the membership set of known
target user ids, the pending batch, the target table as flushed so far, and
the counters. -/
structure UsersLoopState where
  existing : List Int
  payload : List UserRow
  table : List UserRow
  summary : MergeSectionResult
  deriving DecidableEq

/-- The row loop of merge_users: per row increment processed, adapt, classify
insert/update by membership (adding a fresh id to the membership set), append
to the batch, and flush whenever the batch size is reached. -/
def mergeUsersLoop (bs : Nat) (now : Int) :
    List SrcUser → UsersLoopState → UsersLoopState
  | [], st => st
  | row :: rest, st =>
    let entry := adapt_user_row now row
    let s1 := { st.summary with processed := st.summary.processed + 1 }
    let s2 := if row.id ∈ st.existing then { s1 with updated := s1.updated + 1 }
              else { s1 with inserted := s1.inserted + 1 }
    let existing := if row.id ∈ st.existing then st.existing else row.id :: st.existing
    let payload := st.payload ++ [entry]
    if bs ≤ payload.length then
      mergeUsersLoop bs now rest
        { existing := existing, payload := [],
          table := upsert_users st.table payload, summary := s2 }
    else
      mergeUsersLoop bs now rest
        { existing := existing, payload := payload, table := st.table, summary := s2 }

/-- merge_users from merge.py: run the row loop over the source users (in
ORDER BY id order), flush the remainder batch, then sync the user id
sequence. -/
def merge_users (srcUsers : List SrcUser) (tgt : TargetDB) (batch_size : Nat)
    (now : Int) : MergeSectionResult × TargetDB :=
  let st0 : UsersLoopState :=
    { existing := collect_existing_user_ids tgt.tbl_user
      payload := []
      table := tgt.tbl_user
      summary := ⟨0, 0, 0, 0⟩ }
  let st := mergeUsersLoop batch_size now srcUsers st0
  let table := upsert_users st.table st.payload
  (st.summary, { tgt with tbl_user := table, user_id_seq := sync_sequence table })

/-! ## merge_images -/

/-- The per-row decision of the merge_images loop, mirroring its sequential
if/continue chain: the three skip reasons (in check order: null uploader,
uploader unknown in the target, unmapped kind) or the adapted row to
write. -/
inductive ImageRowDecision where
  | skipNoUploader
  | skipUnknownUser (uid : Int)
  | skipUnknownAspect (msg : String)
  | write (entry : ImageRow)
  deriving DecidableEq

/-- Whether a decision is one of the three skips. -/
def ImageRowDecision.isSkip : ImageRowDecision → Bool
  | .write _ => false
  | _ => true

/-- The row checks of merge_images, in source order: uploaded_by null,
uploaded_by not in the known target user set, derive_aspect_id failure; the
first failing check wins, otherwise the row is adapted for writing. -/
def classifyImageRow (known : List Int) (now : Int) (row : SrcImage) :
    ImageRowDecision :=
  match row.uploaded_by with
  | none => ImageRowDecision.skipNoUploader
  | some uid =>
    if uid ∈ known then
      match derive_aspect_id row.kind with
      | Except.ok aspect => ImageRowDecision.write (adapt_image_row row aspect now)
      | Except.error msg => ImageRowDecision.skipUnknownAspect msg
    else ImageRowDecision.skipUnknownUser uid

/-- The loop state of the merge_images row loop. -/
structure ImagesLoopState where
  existing : List String
  payload : List ImageRow
  table : List ImageRow
  summary : MergeSectionResult
  deriving DecidableEq

/-- The row loop of merge_images: per row increment processed; on a skip
increment skipped and continue; otherwise classify insert/update by uuid
membership, batch, and flush at the batch size. -/
def mergeImagesLoop (known : List Int) (bs : Nat) (now : Int) :
    List SrcImage → ImagesLoopState → ImagesLoopState
  | [], st => st
  | row :: rest, st =>
    let s1 := { st.summary with processed := st.summary.processed + 1 }
    match classifyImageRow known now row with
    | ImageRowDecision.write entry =>
      let s2 := if row.uuid ∈ st.existing then { s1 with updated := s1.updated + 1 }
                else { s1 with inserted := s1.inserted + 1 }
      let existing := if row.uuid ∈ st.existing then st.existing
                      else row.uuid :: st.existing
      let payload := st.payload ++ [entry]
      if bs ≤ payload.length then
        mergeImagesLoop known bs now rest
          { existing := existing, payload := [],
            table := upsert_images st.table payload, summary := s2 }
      else
        mergeImagesLoop known bs now rest
          { existing := existing, payload := payload, table := st.table, summary := s2 }
    | _ =>
      mergeImagesLoop known bs now rest
        { st with summary := { s1 with skipped := s1.skipped + 1 } }

/-- merge_images from merge.py: seed the required aspects, load the uuid and
user-id membership sets, run the row loop over the source images (in
ORDER BY uploaded_at, uuid order), and flush the remainder batch. -/
def merge_images (srcImages : List SrcImage) (tgt : TargetDB) (batch_size : Nat)
    (now : Int) : MergeSectionResult × TargetDB :=
  let aspects := ensure_required_aspects tgt.tbl_image_aspect
  let known := collect_existing_user_ids tgt.tbl_user
  let st0 : ImagesLoopState :=
    { existing := collect_existing_image_uuids tgt.tbl_image
      payload := []
      table := tgt.tbl_image
      summary := ⟨0, 0, 0, 0⟩ }
  let st := mergeImagesLoop known batch_size now srcImages st0
  let table := upsert_images st.table st.payload
  (st.summary, { tgt with tbl_image_aspect := aspects, tbl_image := table })

/-! ## run_merge (transaction coordinator) -/

/-- The transaction-level actions run_merge performs on the two connections,
in order of appearance in the source. -/
inductive TxAction where
  | beginSrc
  | beginTgt
  | commitTgt
  | commitSrc
  | rollbackTgt
  | rollbackSrc
  deriving DecidableEq

/-- The coordinator of run_merge, generic in the two merge steps so that a
step raising an exception (Except.error) can be analysed: begin both
transactions (source then target), run the user step then the image step; on
an exception roll back target then source and re-raise; on clean completion
roll back both when dry-run, else commit both (target then source).  Returns
the re-raised error or the result, the state the target database is left in
after commit/rollback, and the transaction actions in order. -/
def run_mergeWith {E : Type} (dryRun : Bool) (tgt0 : TargetDB)
    (usersStep : TargetDB → Except E (MergeSectionResult × TargetDB))
    (imagesStep : TargetDB → Except E (MergeSectionResult × TargetDB)) :
    Except E MergeResult × TargetDB × List TxAction :=
  match usersStep tgt0 with
  | Except.error e =>
    (Except.error e, tgt0,
      [TxAction.beginSrc, TxAction.beginTgt, TxAction.rollbackTgt, TxAction.rollbackSrc])
  | Except.ok (us, t1) =>
    match imagesStep t1 with
    | Except.error e =>
      (Except.error e, tgt0,
        [TxAction.beginSrc, TxAction.beginTgt, TxAction.rollbackTgt, TxAction.rollbackSrc])
    | Except.ok (im, t2) =>
      if dryRun then
        (Except.ok ⟨us, im⟩, tgt0,
          [TxAction.beginSrc, TxAction.beginTgt, TxAction.rollbackTgt, TxAction.rollbackSrc])
      else
        (Except.ok ⟨us, im⟩, t2,
          [TxAction.beginSrc, TxAction.beginTgt, TxAction.commitTgt, TxAction.commitSrc])

/-- run_merge from merge.py, with the two merge steps instantiated by the
embedded merge_users and merge_images (which themselves raise no
exceptions). -/
def run_merge (config : MergeConfig) (src : SourceDB) (tgt0 : TargetDB)
    (now : Int) : Except Unit MergeResult × TargetDB × List TxAction :=
  run_mergeWith config.dry_run tgt0
    (fun t => Except.ok (merge_users src.users t config.batch_size now))
    (fun t => Except.ok (merge_images src.images t config.batch_size now))

/-- The written image entries of a merge_images run: the adapted rows of the
source rows the row checks let through, in processing order. -/
def imageEntries (known : List Int) (now : Int) (rows : List SrcImage) :
    List ImageRow :=
  rows.filterMap (fun row =>
    match classifyImageRow known now row with
    | ImageRowDecision.write entry => some entry
    | _ => none)

/-- The adapted user payload entries of a merge_users run, in processing
order (merge_users skips nothing). -/
def usersEntries (now : Int) (rows : List SrcUser) : List UserRow :=
  rows.map (adapt_user_row now)

/-- All rows of t stored under the key of e already agree with e everywhere
the conflict UPDATE would write (applying the SET list upd with excluded row
e leaves them unchanged). -/
def UpsertMatches {α κ : Type} (key : α → κ) (upd : α → α → α)
    (t : List α) (e : α) : Prop :=
  ∀ r ∈ t, key r = key e → upd r e = r

/-- Some row of t is stored under key k. -/
def HasKey {α κ : Type} (key : α → κ) (t : List α) (k : κ) : Prop :=
  ∃ r ∈ t, key r = k

theorem hasKey_iff_mem_map {α κ : Type} {key : α → κ} {t : List α} {k : κ} :
    HasKey key t k ↔ k ∈ t.map key := by
  simp [HasKey, List.mem_map]

section UpsertLemmas

variable {α κ : Type} [DecidableEq κ] {key : α → κ} {upd : α → α → α}

theorem upsertOne_matches
    (hidem : ∀ r e, upd (upd r e) e = upd r e) (hself : ∀ e, upd e e = e)
    (t : List α) (e : α) : UpsertMatches key upd (upsertOne key upd t e) e := by
  intro r hr hk
  unfold upsertOne at hr
  by_cases h : t.any (fun r => decide (key r = key e))
  · rw [if_pos h] at hr
    obtain ⟨r0, _, rfl⟩ := List.mem_map.1 hr
    by_cases hk0 : key r0 = key e
    · simp only [if_pos hk0, hidem]
    · simp only [if_neg hk0] at hk ⊢
      exact absurd hk hk0
  · rw [if_neg h] at hr
    rcases List.mem_append.1 hr with hr | hr
    · exfalso
      apply h
      rw [List.any_eq_true]
      exact ⟨r, hr, by simp [hk]⟩
    · rw [List.mem_singleton.1 hr]
      exact hself e

theorem upsertOne_hasKey (hkey : ∀ r e, key (upd r e) = key e)
    (t : List α) (e : α) : HasKey key (upsertOne key upd t e) (key e) := by
  unfold upsertOne
  by_cases h : t.any (fun r => decide (key r = key e))
  · rw [if_pos h]
    rw [List.any_eq_true] at h
    obtain ⟨r0, hr0, hk0⟩ := h
    rw [decide_eq_true_iff] at hk0
    exact ⟨upd r0 e, List.mem_map.2 ⟨r0, hr0, by simp [hk0]⟩, hkey r0 e⟩
  · rw [if_neg h]
    exact ⟨e, List.mem_append.2 (Or.inr (List.mem_singleton.2 rfl)), rfl⟩

theorem upsertOne_hasKey_mono (hkey : ∀ r e, key (upd r e) = key e)
    {t : List α} {k : κ} (h : HasKey key t k) (e : α) :
    HasKey key (upsertOne key upd t e) k := by
  obtain ⟨r, hr, hk⟩ := h
  unfold upsertOne
  by_cases hany : t.any (fun r => decide (key r = key e))
  · rw [if_pos hany]
    refine ⟨if key r = key e then upd r e else r, List.mem_map.2 ⟨r, hr, rfl⟩, ?_⟩
    by_cases hre : key r = key e
    · rw [if_pos hre, hkey, ← hre, hk]
    · rw [if_neg hre, hk]
  · rw [if_neg hany]
    exact ⟨r, List.mem_append.2 (Or.inl hr), hk⟩

theorem upsertOne_matches_mono (hkey : ∀ r e, key (upd r e) = key e)
    {t : List α} {e : α} (h : UpsertMatches key upd t e) {e2 : α}
    (hne : key e2 ≠ key e) : UpsertMatches key upd (upsertOne key upd t e2) e := by
  intro r hr hk
  unfold upsertOne at hr
  by_cases hany : t.any (fun r => decide (key r = key e2))
  · rw [if_pos hany] at hr
    obtain ⟨r0, hr0, rfl⟩ := List.mem_map.1 hr
    by_cases hk0 : key r0 = key e2
    · rw [if_pos hk0] at hk ⊢
      exact absurd (hkey r0 e2 ▸ hk) hne
    · rw [if_neg hk0] at hk ⊢
      exact h r0 hr0 hk
  · rw [if_neg hany] at hr
    rcases List.mem_append.1 hr with hr | hr
    · exact h r hr hk
    · rw [List.mem_singleton.1 hr] at hk
      exact absurd hk hne

theorem upsertOne_noop {t : List α} {e : α}
    (h1 : UpsertMatches key upd t e) (h2 : HasKey key t (key e)) :
    upsertOne key upd t e = t := by
  obtain ⟨r0, hr0, hk0⟩ := h2
  unfold upsertOne
  rw [if_pos (List.any_eq_true.2 ⟨r0, hr0, by simp [hk0]⟩)]
  have : ∀ r ∈ t, (if key r = key e then upd r e else r) = r := by
    intro r hr
    by_cases hk : key r = key e
    · rw [if_pos hk]
      exact h1 r hr hk
    · rw [if_neg hk]
  calc t.map (fun r => if key r = key e then upd r e else r)
      = t.map id := List.map_congr_left this
    _ = t := List.map_id t

theorem upsertMany_nil (t : List α) : upsertMany key upd t [] = t := rfl

theorem upsertMany_cons (t : List α) (e : α) (p : List α) :
    upsertMany key upd t (e :: p) = upsertMany key upd (upsertOne key upd t e) p := rfl

theorem upsertMany_append (t : List α) (p q : List α) :
    upsertMany key upd t (p ++ q) = upsertMany key upd (upsertMany key upd t p) q :=
  List.foldl_append _ _ _ _

theorem upsertMany_matches_mono (hkey : ∀ r e, key (upd r e) = key e)
    {t : List α} {e : α} (h : UpsertMatches key upd t e) {p : List α}
    (hne : ∀ e2 ∈ p, key e2 ≠ key e) :
    UpsertMatches key upd (upsertMany key upd t p) e := by
  induction p generalizing t with
  | nil => exact h
  | cons e2 p ih =>
    rw [upsertMany_cons]
    exact ih (upsertOne_matches_mono hkey h (hne e2 (List.mem_cons_self e2 p)))
      (fun x hx => hne x (List.mem_cons_of_mem e2 hx))

theorem upsertMany_hasKey_mono (hkey : ∀ r e, key (upd r e) = key e)
    {t : List α} {k : κ} (h : HasKey key t k) (p : List α) :
    HasKey key (upsertMany key upd t p) k := by
  induction p generalizing t with
  | nil => exact h
  | cons e2 p ih =>
    rw [upsertMany_cons]
    exact ih (upsertOne_hasKey_mono hkey h e2)

theorem upsertMany_hasKey_of_mem (hkey : ∀ r e, key (upd r e) = key e)
    {p : List α} {e : α} (he : e ∈ p) (t : List α) :
    HasKey key (upsertMany key upd t p) (key e) := by
  induction p generalizing t with
  | nil => cases he
  | cons e2 p ih =>
    rw [upsertMany_cons]
    rcases List.mem_cons.1 he with rfl | he
    · exact upsertMany_hasKey_mono hkey (upsertOne_hasKey hkey t e) p
    · exact ih he _

theorem upsertMany_replay (hkey : ∀ r e, key (upd r e) = key e)
    (hidem : ∀ r e, upd (upd r e) e = upd r e) (hself : ∀ e, upd e e = e)
    {p : List α} (hnd : (p.map key).Nodup) (t : List α) :
    upsertMany key upd (upsertMany key upd t p) p = upsertMany key upd t p := by
  induction p generalizing t with
  | nil => rfl
  | cons e p ih =>
    rw [List.map_cons, List.nodup_cons] at hnd
    obtain ⟨hnotin, hnd⟩ := hnd
    have hne : ∀ e2 ∈ p, key e2 ≠ key e := by
      intro e2 he2 hk
      exact hnotin (hk ▸ List.mem_map_of_mem key he2)
    rw [upsertMany_cons, upsertMany_cons]
    have hm : UpsertMatches key upd (upsertMany key upd (upsertOne key upd t e) p) e :=
      upsertMany_matches_mono hkey (upsertOne_matches hidem hself t e) hne
    have hh : HasKey key (upsertMany key upd (upsertOne key upd t e) p) (key e) :=
      upsertMany_hasKey_mono hkey (upsertOne_hasKey hkey t e) p
    rw [upsertOne_noop hm hh]
    exact ih hnd (upsertOne key upd t e)

theorem upsertOne_old_or (Q : α → Prop) (hQ : ∀ r e, Q e → Q (upd r e))
    {base t : List α} (ht : ∀ r ∈ t, r ∈ base ∨ Q r) {e : α} (he : Q e) :
    ∀ r ∈ upsertOne key upd t e, r ∈ base ∨ Q r := by
  intro r hr
  unfold upsertOne at hr
  by_cases hany : t.any (fun r => decide (key r = key e))
  · rw [if_pos hany] at hr
    obtain ⟨r0, hr0, rfl⟩ := List.mem_map.1 hr
    by_cases hk0 : key r0 = key e
    · rw [if_pos hk0]
      exact Or.inr (hQ r0 e he)
    · rw [if_neg hk0]
      exact ht r0 hr0
  · rw [if_neg hany] at hr
    rcases List.mem_append.1 hr with hr | hr
    · exact ht r hr
    · rw [List.mem_singleton.1 hr]
      exact Or.inr he

theorem upsertMany_old_or (Q : α → Prop) (hQ : ∀ r e, Q e → Q (upd r e))
    {base : List α} {p : List α} (hp : ∀ e ∈ p, Q e) {t : List α}
    (ht : ∀ r ∈ t, r ∈ base ∨ Q r) :
    ∀ r ∈ upsertMany key upd t p, r ∈ base ∨ Q r := by
  induction p generalizing t with
  | nil => exact ht
  | cons e p ih =>
    rw [upsertMany_cons]
    exact ih (fun x hx => hp x (List.mem_cons_of_mem e hx))
      (upsertOne_old_or Q hQ ht (hp e (List.mem_cons_self e p)))

end UpsertLemmas

/-! ## merge_users lemmas -/

theorem userUpd_key (r e : UserRow) : (userUpd r e).id = e.id := rfl

theorem userUpd_idem (r e : UserRow) : userUpd (userUpd r e) e = userUpd r e := rfl

theorem userUpd_self (e : UserRow) : userUpd e e = e := rfl

theorem imageUpd_key (r e : ImageRow) : (imageUpd r e).uuid = e.uuid := rfl

theorem imageUpd_idem (r e : ImageRow) : imageUpd (imageUpd r e) e = imageUpd r e := rfl

theorem imageUpd_self (e : ImageRow) : imageUpd e e = e := rfl

/-- Batch boundaries do not matter: flushing the pending payload of the loop
final state over the loop final table is the same as upserting all adapted
rows, in order, over the initial table and payload. -/
theorem mergeUsersLoop_table (bs : Nat) (now : Int) (rows : List SrcUser)
    (st : UsersLoopState) :
    upsert_users (mergeUsersLoop bs now rows st).table
        (mergeUsersLoop bs now rows st).payload
      = upsert_users (upsert_users st.table st.payload) (usersEntries now rows) := by
  induction rows generalizing st with
  | nil => simp [mergeUsersLoop, usersEntries, upsert_users, upsertMany]
  | cons row rest ih =>
    simp only [mergeUsersLoop]
    split
    · rw [ih]
      simp [usersEntries, upsert_users, upsertMany_append, upsertMany_cons, upsertMany_nil]
    · rw [ih]
      simp [usersEntries, upsert_users, upsertMany_append, upsertMany_cons, upsertMany_nil]

/-- When every incoming identifier is already in the membership set, the loop
counts no inserts and leaves the membership set unchanged. -/
theorem mergeUsersLoop_all_updates (bs : Nat) (now : Int) (rows : List SrcUser)
    (st : UsersLoopState) (h : ∀ r ∈ rows, r.id ∈ st.existing) :
    (mergeUsersLoop bs now rows st).summary.inserted = st.summary.inserted
      ∧ (mergeUsersLoop bs now rows st).existing = st.existing := by
  induction rows generalizing st with
  | nil => exact ⟨rfl, rfl⟩
  | cons row rest ih =>
    have hid : row.id ∈ st.existing := h row (List.mem_cons_self row rest)
    have hrest : ∀ r ∈ rest, r.id ∈ st.existing :=
      fun r hr => h r (List.mem_cons_of_mem row hr)
    simp only [mergeUsersLoop, hid, if_true]
    split
    · exact ih _ hrest
    · exact ih _ hrest

/-- merge_users writes exactly the adapted source rows over the initial
target table. -/
theorem merge_users_table (srcUsers : List SrcUser) (tgt : TargetDB)
    (bs : Nat) (now : Int) :
    (merge_users srcUsers tgt bs now).2.tbl_user
      = upsert_users tgt.tbl_user (usersEntries now srcUsers) := by
  show upsert_users (mergeUsersLoop bs now srcUsers _).table
      (mergeUsersLoop bs now srcUsers _).payload = _
  rw [mergeUsersLoop_table]
  rfl

theorem merge_users_seq (srcUsers : List SrcUser) (tgt : TargetDB)
    (bs : Nat) (now : Int) :
    (merge_users srcUsers tgt bs now).2.user_id_seq
      = sync_sequence ((merge_users srcUsers tgt bs now).2.tbl_user) := rfl

theorem merge_users_frame (srcUsers : List SrcUser) (tgt : TargetDB)
    (bs : Nat) (now : Int) :
    (merge_users srcUsers tgt bs now).2.tbl_image = tgt.tbl_image
      ∧ (merge_users srcUsers tgt bs now).2.tbl_image_aspect = tgt.tbl_image_aspect :=
  ⟨rfl, rfl⟩

/-- Every migrated identifier is present in the user table merge_users leaves
behind. -/
theorem merge_users_ids_present (srcUsers : List SrcUser) (tgt : TargetDB)
    (bs : Nat) (now : Int) :
    ∀ s ∈ srcUsers, s.id ∈ ((merge_users srcUsers tgt bs now).2.tbl_user).map UserRow.id := by
  intro s hs
  rw [merge_users_table]
  rw [← hasKey_iff_mem_map]
  have : s.id = UserRow.id (adapt_user_row now s) := rfl
  rw [this]
  exact upsertMany_hasKey_of_mem userUpd_key
    (List.mem_map_of_mem (adapt_user_row now) hs) tgt.tbl_user

/-- When every source user identifier already exists in the target user
table, merge_users counts zero inserts. -/
theorem merge_users_inserted_zero (srcUsers : List SrcUser) (tgt : TargetDB)
    (bs : Nat) (now : Int)
    (h : ∀ s ∈ srcUsers, s.id ∈ tgt.tbl_user.map UserRow.id) :
    (merge_users srcUsers tgt bs now).1.inserted = 0 := by
  show (mergeUsersLoop bs now srcUsers _).summary.inserted = _
  rw [(mergeUsersLoop_all_updates bs now srcUsers _ h).1]

/-! ## merge_images lemmas -/

theorem derive_aspect_id_ok_mem (kind aspect : String)
    (h : derive_aspect_id kind = Except.ok aspect) :
    aspect = "card-background" ∨ aspect = "sega-passname" := by
  unfold derive_aspect_id KIND_TO_ASPECT at h
  split_ifs at h <;> simp_all

/-- Check 1 of the merge_images row loop: a null uploader is skipped first,
whatever the other fields hold. -/
theorem classifyImageRow_none (known : List Int) (now : Int) (row : SrcImage)
    (h : row.uploaded_by = none) :
    classifyImageRow known now row = ImageRowDecision.skipNoUploader := by
  unfold classifyImageRow
  rw [h]

/-- Check 2: an uploader outside the known target user set is skipped,
whatever the kind holds. -/
theorem classifyImageRow_unknown_user (known : List Int) (now : Int)
    (row : SrcImage) (uid : Int) (h : row.uploaded_by = some uid)
    (hk : uid ∉ known) :
    classifyImageRow known now row = ImageRowDecision.skipUnknownUser uid := by
  unfold classifyImageRow
  rw [h]
  show (if uid ∈ known then _ else _) = _
  rw [if_neg hk]

/-- Check 3: with an uploader passing both earlier checks, a failing
derive_aspect_id skips the row with the classification error message. -/
theorem classifyImageRow_unknown_aspect (known : List Int) (now : Int)
    (row : SrcImage) (uid : Int) (msg : String) (h : row.uploaded_by = some uid)
    (hk : uid ∈ known) (hd : derive_aspect_id row.kind = Except.error msg) :
    classifyImageRow known now row = ImageRowDecision.skipUnknownAspect msg := by
  unfold classifyImageRow
  rw [h]
  show (if uid ∈ known then
          match derive_aspect_id row.kind with
          | Except.ok aspect => ImageRowDecision.write (adapt_image_row row aspect now)
          | Except.error msg => ImageRowDecision.skipUnknownAspect msg
        else ImageRowDecision.skipUnknownUser uid) = _
  rw [if_pos hk, hd]

/-- A row passing all three checks is adapted for writing. -/
theorem classifyImageRow_ok (known : List Int) (now : Int)
    (row : SrcImage) (uid : Int) (aspect : String) (h : row.uploaded_by = some uid)
    (hk : uid ∈ known) (hd : derive_aspect_id row.kind = Except.ok aspect) :
    classifyImageRow known now row
      = ImageRowDecision.write (adapt_image_row row aspect now) := by
  unfold classifyImageRow
  rw [h]
  show (if uid ∈ known then
          match derive_aspect_id row.kind with
          | Except.ok aspect => ImageRowDecision.write (adapt_image_row row aspect now)
          | Except.error msg => ImageRowDecision.skipUnknownAspect msg
        else ImageRowDecision.skipUnknownUser uid) = _
  rw [if_pos hk, hd]

/-- Inversion: a write decision comes from a row with a known uploader and a
successfully derived aspect, and the written entry is its adaptation. -/
theorem classifyImageRow_write_inv (known : List Int) (now : Int)
    (row : SrcImage) (entry : ImageRow)
    (h : classifyImageRow known now row = ImageRowDecision.write entry) :
    ∃ uid aspect, row.uploaded_by = some uid ∧ uid ∈ known
      ∧ derive_aspect_id row.kind = Except.ok aspect
      ∧ entry = adapt_image_row row aspect now := by
  cases hby : row.uploaded_by with
  | none =>
    rw [classifyImageRow_none known now row hby] at h
    cases h
  | some uid =>
    by_cases hk : uid ∈ known
    · cases hd : derive_aspect_id row.kind with
      | ok aspect =>
        rw [classifyImageRow_ok known now row uid aspect hby hk hd] at h
        cases h
        exact ⟨uid, aspect, rfl, hk, rfl, rfl⟩
      | error msg =>
        rw [classifyImageRow_unknown_aspect known now row uid msg hby hk hd] at h
        cases h
    · rw [classifyImageRow_unknown_user known now row uid hby hk] at h
      cases h

theorem classifyImageRow_write_uuid (known : List Int) (now : Int)
    (row : SrcImage) (entry : ImageRow)
    (h : classifyImageRow known now row = ImageRowDecision.write entry) :
    entry.uuid = row.uuid := by
  obtain ⟨uid, aspect, _, _, _, rfl⟩ := classifyImageRow_write_inv known now row entry h
  rfl

theorem classifyImageRow_write_fields (known : List Int) (now : Int)
    (row : SrcImage) (entry : ImageRow)
    (h : classifyImageRow known now row = ImageRowDecision.write entry) :
    (∃ uid, uid ∈ known ∧ entry.user_id = some uid)
      ∧ (entry.aspect_id = "card-background" ∨ entry.aspect_id = "sega-passname") := by
  obtain ⟨uid, aspect, hby, hk, hd, rfl⟩ :=
    classifyImageRow_write_inv known now row entry h
  exact ⟨⟨uid, hk, hby⟩, derive_aspect_id_ok_mem row.kind aspect hd⟩

theorem imageEntries_nil (known : List Int) (now : Int) :
    imageEntries known now [] = [] := rfl

theorem imageEntries_cons_skip (known : List Int) (now : Int) (row : SrcImage)
    (rest : List SrcImage)
    (h : (classifyImageRow known now row).isSkip = true) :
    imageEntries known now (row :: rest) = imageEntries known now rest := by
  unfold imageEntries
  rw [List.filterMap_cons]
  cases hc : classifyImageRow known now row with
  | write entry => rw [hc] at h; cases h
  | skipNoUploader => rfl
  | skipUnknownUser uid => rfl
  | skipUnknownAspect msg => rfl

theorem imageEntries_cons_write (known : List Int) (now : Int) (row : SrcImage)
    (rest : List SrcImage) (entry : ImageRow)
    (h : classifyImageRow known now row = ImageRowDecision.write entry) :
    imageEntries known now (row :: rest) = entry :: imageEntries known now rest := by
  unfold imageEntries
  rw [List.filterMap_cons, h]

/-- Every entry of imageEntries comes from a source row the checks let
through. -/
theorem imageEntries_mem (known : List Int) (now : Int) (rows : List SrcImage)
    (entry : ImageRow) (h : entry ∈ imageEntries known now rows) :
    ∃ row ∈ rows, classifyImageRow known now row = ImageRowDecision.write entry := by
  unfold imageEntries at h
  obtain ⟨row, hrow, hc⟩ := List.mem_filterMap.1 h
  refine ⟨row, hrow, ?_⟩
  cases hcl : classifyImageRow known now row <;> rw [hcl] at hc <;> simp_all

/-- The uuids of the written entries form a sublist of the source uuids. -/
theorem imageEntries_uuid_sublist (known : List Int) (now : Int)
    (rows : List SrcImage) :
    ((imageEntries known now rows).map ImageRow.uuid).Sublist
      (rows.map SrcImage.uuid) := by
  induction rows with
  | nil => simp [imageEntries]
  | cons row rest ih =>
    rw [List.map_cons]
    cases hc : classifyImageRow known now row with
    | write entry =>
      rw [imageEntries_cons_write known now row rest entry hc, List.map_cons,
        classifyImageRow_write_uuid known now row entry hc]
      exact ih.cons₂ row.uuid
    | skipNoUploader =>
      rw [imageEntries_cons_skip known now row rest (by rw [hc]; rfl)]
      exact ih.cons row.uuid
    | skipUnknownUser uid =>
      rw [imageEntries_cons_skip known now row rest (by rw [hc]; rfl)]
      exact ih.cons row.uuid
    | skipUnknownAspect msg =>
      rw [imageEntries_cons_skip known now row rest (by rw [hc]; rfl)]
      exact ih.cons row.uuid

/-- Batch boundaries do not matter for the image loop either. -/
theorem mergeImagesLoop_table (known : List Int) (bs : Nat) (now : Int)
    (rows : List SrcImage) (st : ImagesLoopState) :
    upsert_images (mergeImagesLoop known bs now rows st).table
        (mergeImagesLoop known bs now rows st).payload
      = upsert_images (upsert_images st.table st.payload)
          (imageEntries known now rows) := by
  induction rows generalizing st with
  | nil => simp [mergeImagesLoop, imageEntries, upsert_images, upsertMany]
  | cons row rest ih =>
    cases hc : classifyImageRow known now row with
    | write entry =>
      rw [imageEntries_cons_write known now row rest entry hc]
      simp only [mergeImagesLoop, hc]
      split
      · rw [ih]
        simp [upsert_images, upsertMany_append, upsertMany_cons, upsertMany_nil]
      · rw [ih]
        simp [upsert_images, upsertMany_append, upsertMany_cons, upsertMany_nil]
    | skipNoUploader =>
      simp only [mergeImagesLoop, hc]
      rw [ih, imageEntries_cons_skip known now row rest (by rw [hc]; rfl)]
    | skipUnknownUser uid =>
      simp only [mergeImagesLoop, hc]
      rw [ih, imageEntries_cons_skip known now row rest (by rw [hc]; rfl)]
    | skipUnknownAspect msg =>
      simp only [mergeImagesLoop, hc]
      rw [ih, imageEntries_cons_skip known now row rest (by rw [hc]; rfl)]

/-- When every row that passes the checks has a uuid already in the
membership set, the image loop counts no inserts and leaves the membership
set unchanged. -/
theorem mergeImagesLoop_all_updates (known : List Int) (bs : Nat) (now : Int)
    (rows : List SrcImage) (st : ImagesLoopState)
    (h : ∀ row ∈ rows, ∀ entry,
      classifyImageRow known now row = ImageRowDecision.write entry →
        row.uuid ∈ st.existing) :
    (mergeImagesLoop known bs now rows st).summary.inserted = st.summary.inserted
      ∧ (mergeImagesLoop known bs now rows st).existing = st.existing := by
  induction rows generalizing st with
  | nil => exact ⟨rfl, rfl⟩
  | cons row rest ih =>
    have hrest : ∀ r ∈ rest, ∀ entry,
        classifyImageRow known now r = ImageRowDecision.write entry →
          r.uuid ∈ st.existing :=
      fun r hr => h r (List.mem_cons_of_mem row hr)
    cases hc : classifyImageRow known now row with
    | write entry =>
      have hid : row.uuid ∈ st.existing :=
        h row (List.mem_cons_self row rest) entry hc
      simp only [mergeImagesLoop, hc, hid, if_true]
      split
      · exact ih _ hrest
      · exact ih _ hrest
    | skipNoUploader =>
      simp only [mergeImagesLoop, hc]
      exact ih _ hrest
    | skipUnknownUser uid =>
      simp only [mergeImagesLoop, hc]
      exact ih _ hrest
    | skipUnknownAspect msg =>
      simp only [mergeImagesLoop, hc]
      exact ih _ hrest

/-- merge_images writes exactly the let-through adapted rows over the initial
image table. -/
theorem merge_images_table (srcImages : List SrcImage) (tgt : TargetDB)
    (bs : Nat) (now : Int) :
    (merge_images srcImages tgt bs now).2.tbl_image
      = upsert_images tgt.tbl_image
          (imageEntries (collect_existing_user_ids tgt.tbl_user) now srcImages) := by
  show upsert_images (mergeImagesLoop _ bs now srcImages _).table
      (mergeImagesLoop _ bs now srcImages _).payload = _
  rw [mergeImagesLoop_table]
  rfl

theorem merge_images_frame (srcImages : List SrcImage) (tgt : TargetDB)
    (bs : Nat) (now : Int) :
    (merge_images srcImages tgt bs now).2.tbl_user = tgt.tbl_user
      ∧ (merge_images srcImages tgt bs now).2.user_id_seq = tgt.user_id_seq
      ∧ (merge_images srcImages tgt bs now).2.tbl_image_aspect
          = ensure_required_aspects tgt.tbl_image_aspect :=
  ⟨rfl, rfl, rfl⟩

/-- When every let-through uuid already exists in the target image table,
merge_images counts zero inserts. -/
theorem merge_images_inserted_zero (srcImages : List SrcImage) (tgt : TargetDB)
    (bs : Nat) (now : Int)
    (h : ∀ row ∈ srcImages, ∀ entry,
      classifyImageRow (collect_existing_user_ids tgt.tbl_user) now row
          = ImageRowDecision.write entry →
        row.uuid ∈ tgt.tbl_image.map ImageRow.uuid) :
    (merge_images srcImages tgt bs now).1.inserted = 0 := by
  show (mergeImagesLoop _ bs now srcImages _).summary.inserted = _
  rw [(mergeImagesLoop_all_updates _ bs now srcImages _ h).1]

/-! ## aspects, sequence, replay -/

/-- The insert-if-missing fold of ensure_required_aspects never removes an
identifier. -/
theorem insertAspectFold_mono (l : List AspectRow) (a : List AspectRow)
    (k : String) (h : k ∈ a.map AspectRow.id) :
    k ∈ (l.foldl
        (fun t d => if d.id ∈ t.map AspectRow.id then t else t ++ [d]) a).map
      AspectRow.id := by
  induction l generalizing a with
  | nil => exact h
  | cons d l ih =>
    rw [List.foldl_cons]
    apply ih
    by_cases hd : d.id ∈ a.map AspectRow.id
    · rw [if_pos hd]
      exact h
    · rw [if_neg hd, List.map_append]
      exact List.mem_append.2 (Or.inl h)

/-- The insert-if-missing fold of ensure_required_aspects makes every
processed identifier present. -/
theorem insertAspectFold_mem (l : List AspectRow) (a : List AspectRow)
    (d : AspectRow) (hd : d ∈ l) :
    d.id ∈ (l.foldl
        (fun t d => if d.id ∈ t.map AspectRow.id then t else t ++ [d]) a).map
      AspectRow.id := by
  induction l generalizing a with
  | nil => cases hd
  | cons d0 l ih =>
    rw [List.foldl_cons]
    rcases List.mem_cons.1 hd with rfl | hd2
    · apply insertAspectFold_mono
      by_cases hp : d.id ∈ a.map AspectRow.id
      · rw [if_pos hp]
        exact hp
      · rw [if_neg hp, List.map_append]
        exact List.mem_append.2 (Or.inr (by simp))
    · exact ih _ hd2

theorem ensure_required_ids (a : List AspectRow) :
    "card-background" ∈ (ensure_required_aspects a).map AspectRow.id
      ∧ "sega-passname" ∈ (ensure_required_aspects a).map AspectRow.id := by
  unfold ensure_required_aspects
  constructor
  · by_cases h1 : "card-background" ∈ a.map AspectRow.id
    · exact insertAspectFold_mono _ a _ h1
    · have : cardBackgroundAspect.id
          ∈ (requiredAspects.filter
              (fun d => decide (d.id ∉ a.map AspectRow.id))).map AspectRow.id := by
        apply List.mem_map_of_mem
        apply List.mem_filter.2
        exact ⟨by simp [requiredAspects], decide_eq_true h1⟩
      obtain ⟨d, hdmem, hdid⟩ := List.mem_map.1 this
      have := insertAspectFold_mem _ a d hdmem
      rw [hdid] at this
      exact this
  · by_cases h2 : "sega-passname" ∈ a.map AspectRow.id
    · exact insertAspectFold_mono _ a _ h2
    · have : segaPassnameAspect.id
          ∈ (requiredAspects.filter
              (fun d => decide (d.id ∉ a.map AspectRow.id))).map AspectRow.id := by
        apply List.mem_map_of_mem
        apply List.mem_filter.2
        exact ⟨by simp [requiredAspects], decide_eq_true h2⟩
      obtain ⟨d, hdmem, hdid⟩ := List.mem_map.1 this
      have := insertAspectFold_mem _ a d hdmem
      rw [hdid] at this
      exact this

theorem ensure_required_noop (a : List AspectRow)
    (h1 : "card-background" ∈ a.map AspectRow.id)
    (h2 : "sega-passname" ∈ a.map AspectRow.id) :
    ensure_required_aspects a = a := by
  unfold ensure_required_aspects requiredAspects
  rw [List.filter_cons, List.filter_cons, List.filter_nil]
  rw [show decide (cardBackgroundAspect.id ∉ a.map AspectRow.id) = false from
    decide_eq_false (not_not_intro h1)]
  rw [show decide (segaPassnameAspect.id ∉ a.map AspectRow.id) = false from
    decide_eq_false (not_not_intro h2)]
  simp

theorem le_foldl_max_init (x : Int) (xs : List Int) : x ≤ xs.foldl max x := by
  induction xs generalizing x with
  | nil => exact le_refl x
  | cons y ys ih => exact le_trans (le_max_left x y) (ih (max x y))

theorem mem_le_foldl_max (a x : Int) (xs : List Int) (h : a ∈ xs) :
    a ≤ xs.foldl max x := by
  induction xs generalizing x with
  | nil => cases h
  | cons y ys ih =>
    rcases List.mem_cons.1 h with rfl | h2
    · exact le_trans (le_max_right x a) (le_foldl_max_init (max x a) ys)
    · exact ih (max x y) h2

/-- The value _sync_sequence sets is an upper bound of every stored user
identifier. -/
theorem sync_sequence_ge (t : List UserRow) (r : UserRow) (h : r ∈ t) :
    r.id ≤ sync_sequence t := by
  unfold sync_sequence
  cases ht : t.map UserRow.id with
  | nil =>
    rw [List.map_eq_nil_iff] at ht
    subst ht
    cases h
  | cons x xs =>
    have hm : r.id ∈ t.map UserRow.id := List.mem_map_of_mem UserRow.id h
    rw [ht] at hm
    rcases List.mem_cons.1 hm with h2 | h2
    · rw [h2]
      exact le_foldl_max_init x xs
    · exact mem_le_foldl_max r.id x xs h2

theorem upsert_users_replay (p : List UserRow)
    (hnd : (p.map UserRow.id).Nodup) (t : List UserRow) :
    upsert_users (upsert_users t p) p = upsert_users t p :=
  upsertMany_replay userUpd_key userUpd_idem userUpd_self hnd t

theorem upsert_images_replay (p : List ImageRow)
    (hnd : (p.map ImageRow.uuid).Nodup) (t : List ImageRow) :
    upsert_images (upsert_images t p) p = upsert_images t p :=
  upsertMany_replay imageUpd_key imageUpd_idem imageUpd_self hnd t

theorem usersEntries_map_id (now : Int) (rows : List SrcUser) :
    (usersEntries now rows).map UserRow.id = rows.map SrcUser.id := by
  unfold usersEntries
  rw [List.map_map]
  rfl

theorem imageEntries_mem_of (known : List Int) (now : Int)
    (rows : List SrcImage) (row : SrcImage) (entry : ImageRow)
    (hrow : row ∈ rows)
    (hc : classifyImageRow known now row = ImageRowDecision.write entry) :
    entry ∈ imageEntries known now rows := by
  unfold imageEntries
  exact List.mem_filterMap.2 ⟨row, hrow, by rw [hc]⟩

theorem TargetDB_ext (x y : TargetDB) (h1 : x.tbl_user = y.tbl_user)
    (h2 : x.tbl_image = y.tbl_image)
    (h3 : x.tbl_image_aspect = y.tbl_image_aspect)
    (h4 : x.user_id_seq = y.user_id_seq) : x = y := by
  cases x
  cases y
  simp_all

/-! ## second-run lemmas -/

/-- With dry_run disabled, run_merge is the sequential composition of
merge_users and merge_images followed by a commit of both transactions. -/
theorem run_merge_false_eval (bs : Nat) (src : SourceDB) (t : TargetDB)
    (now : Int) :
    run_merge ⟨bs, false⟩ src t now
      = (Except.ok ⟨(merge_users src.users t bs now).1,
            (merge_images src.images (merge_users src.users t bs now).2 bs now).1⟩,
         (merge_images src.images (merge_users src.users t bs now).2 bs now).2,
         [TxAction.beginSrc, TxAction.beginTgt, TxAction.commitTgt,
          TxAction.commitSrc]) := rfl

/-- Re-running both merge sections over the state a completed run left
behind changes nothing and counts no inserts. -/
theorem second_run_fixes (src : SourceDB) (tgt0 : TargetDB) (bs : Nat)
    (now : Int)
    (hu : (src.users.map SrcUser.id).Nodup)
    (hi : (src.images.map SrcImage.uuid).Nodup)
    (t1 : TargetDB)
    (ht1 : t1 = (merge_images src.images
        (merge_users src.users tgt0 bs now).2 bs now).2) :
    (merge_users src.users t1 bs now).2 = t1
      ∧ (merge_users src.users t1 bs now).1.inserted = 0
      ∧ (merge_images src.images t1 bs now).2 = t1
      ∧ (merge_images src.images t1 bs now).1.inserted = 0 := by
  have hframeI := merge_images_frame src.images
    (merge_users src.users tgt0 bs now).2 bs now
  have hframeU := merge_users_frame src.users tgt0 bs now
  have h_user_eq : t1.tbl_user = (merge_users src.users tgt0 bs now).2.tbl_user := by
    rw [ht1, hframeI.1]
  have h_user : t1.tbl_user
      = upsert_users tgt0.tbl_user (usersEntries now src.users) := by
    rw [h_user_eq, merge_users_table]
  have h_seq : t1.user_id_seq = sync_sequence t1.tbl_user := by
    rw [ht1, hframeI.2.1, hframeI.1, merge_users_seq]
  have h_image0 : t1.tbl_image
      = upsert_images tgt0.tbl_image
          (imageEntries (collect_existing_user_ids
              ((merge_users src.users tgt0 bs now).2.tbl_user)) now src.images) := by
    rw [ht1, merge_images_table, hframeU.1]
  rw [← h_user_eq] at h_image0
  have h_aspect : t1.tbl_image_aspect
      = ensure_required_aspects tgt0.tbl_image_aspect := by
    rw [ht1, hframeI.2.2, hframeU.2]
  have hEuNodup : ((usersEntries now src.users).map UserRow.id).Nodup := by
    rw [usersEntries_map_id]
    exact hu
  have g_user_tbl : (merge_users src.users t1 bs now).2.tbl_user = t1.tbl_user := by
    rw [merge_users_table, h_user, upsert_users_replay _ hEuNodup]
  have g_users_state : (merge_users src.users t1 bs now).2 = t1 := by
    apply TargetDB_ext
    · exact g_user_tbl
    · exact (merge_users_frame src.users t1 bs now).1
    · exact (merge_users_frame src.users t1 bs now).2
    · rw [merge_users_seq, g_user_tbl, ← h_seq]
  have g_users_ins : (merge_users src.users t1 bs now).1.inserted = 0 := by
    apply merge_users_inserted_zero
    intro s hs
    have hmem := merge_users_ids_present src.users tgt0 bs now s hs
    rw [← h_user_eq] at hmem
    exact hmem
  have hEiNodup : ((imageEntries (collect_existing_user_ids t1.tbl_user) now
      src.images).map ImageRow.uuid).Nodup :=
    List.Nodup.sublist (imageEntries_uuid_sublist _ now src.images) hi
  have g_img_tbl : (merge_images src.images t1 bs now).2.tbl_image
      = t1.tbl_image := by
    rw [merge_images_table, h_image0, upsert_images_replay _ hEiNodup]
  have g_img_aspect : (merge_images src.images t1 bs now).2.tbl_image_aspect
      = t1.tbl_image_aspect := by
    rw [(merge_images_frame src.images t1 bs now).2.2, h_aspect]
    exact ensure_required_noop _ (ensure_required_ids _).1 (ensure_required_ids _).2
  have g_images_state : (merge_images src.images t1 bs now).2 = t1 :=
    TargetDB_ext _ _ (merge_images_frame src.images t1 bs now).1 g_img_tbl
      g_img_aspect (merge_images_frame src.images t1 bs now).2.1
  have g_images_ins : (merge_images src.images t1 bs now).1.inserted = 0 := by
    apply merge_images_inserted_zero
    intro row hrow entry hc
    have hent : entry ∈ imageEntries (collect_existing_user_ids t1.tbl_user)
        now src.images :=
      imageEntries_mem_of _ now src.images row entry hrow hc
    have huuid : entry.uuid = row.uuid :=
      classifyImageRow_write_uuid _ now row entry hc
    have hkey : HasKey ImageRow.uuid
        (upsert_images tgt0.tbl_image
          (imageEntries (collect_existing_user_ids t1.tbl_user) now src.images))
        entry.uuid :=
      upsertMany_hasKey_of_mem imageUpd_key hent tgt0.tbl_image
    rw [← h_image0] at hkey
    rw [← huuid]
    exact hasKey_iff_mem_map.1 hkey
  exact ⟨g_users_state, g_users_ins, g_images_state, g_images_ins⟩

/-! ## Claims -/

/-- C2: the merge_images row checks run in the fixed order (1) null
uploader, (2) uploader not in the known target user set, (3)
derive_aspect_id failure, and the first failing check wins; on any skip the
row loop increments processed and the skip counter exactly once, writes
nothing (membership set, batch and table untouched), and continues with the
remaining rows — the loop never aborts. -/
theorem claim_C2 (known : List Int) (bs : Nat) (now : Int) (row : SrcImage)
    (rest : List SrcImage) (st : ImagesLoopState) :
    (row.uploaded_by = none →
        classifyImageRow known now row = ImageRowDecision.skipNoUploader)
      ∧ (∀ uid, row.uploaded_by = some uid → uid ∉ known →
          classifyImageRow known now row = ImageRowDecision.skipUnknownUser uid)
      ∧ (∀ uid msg, row.uploaded_by = some uid → uid ∈ known →
          derive_aspect_id row.kind = Except.error msg →
          classifyImageRow known now row = ImageRowDecision.skipUnknownAspect msg)
      ∧ ((classifyImageRow known now row).isSkip = true →
          mergeImagesLoop known bs now (row :: rest) st
            = mergeImagesLoop known bs now rest
                { existing := st.existing, payload := st.payload,
                  table := st.table,
                  summary :=
                    { processed := st.summary.processed + 1,
                      inserted := st.summary.inserted,
                      updated := st.summary.updated,
                      skipped := st.summary.skipped + 1 } }) := by
  refine ⟨fun h => classifyImageRow_none known now row h,
    fun uid h hk => classifyImageRow_unknown_user known now row uid h hk,
    fun uid msg h hk hd =>
      classifyImageRow_unknown_aspect known now row uid msg h hk hd,
    fun hskip => ?_⟩
  cases hc : classifyImageRow known now row with
  | write entry =>
    rw [hc] at hskip
    simp [ImageRowDecision.isSkip] at hskip
  | skipNoUploader => simp only [mergeImagesLoop, hc]
  | skipUnknownUser uid => simp only [mergeImagesLoop, hc]
  | skipUnknownAspect msg => simp only [mergeImagesLoop, hc]

/-- C3: once both transactions are open, an exception from either merge step
makes the coordinator roll back the target transaction first, then the
source transaction, and re-raise that very error; the persisted target state
is the pre-run state, so nothing either step wrote survives. -/
theorem claim_C3 {E : Type} (dryRun : Bool) (tgt0 : TargetDB)
    (usersStep imagesStep : TargetDB → Except E (MergeSectionResult × TargetDB)) :
    (∀ e, usersStep tgt0 = Except.error e →
        run_mergeWith dryRun tgt0 usersStep imagesStep
          = (Except.error e, tgt0,
              [TxAction.beginSrc, TxAction.beginTgt, TxAction.rollbackTgt,
               TxAction.rollbackSrc]))
      ∧ (∀ us t1 e, usersStep tgt0 = Except.ok (us, t1) →
          imagesStep t1 = Except.error e →
          run_mergeWith dryRun tgt0 usersStep imagesStep
            = (Except.error e, tgt0,
                [TxAction.beginSrc, TxAction.beginTgt, TxAction.rollbackTgt,
                 TxAction.rollbackSrc])) := by
  constructor
  · intro e h
    simp only [run_mergeWith, h]
  · intro us t1 e h1 h2
    simp only [run_mergeWith, h1, h2]

/-- C4: with the same source data, pre-run target state and clock, a dry run
returns exactly the same result (all per-entity counters) as a real run, and
the target state persisted after the dry run is the pre-run state. -/
theorem claim_C4 (bs : Nat) (src : SourceDB) (tgt0 : TargetDB) (now : Int) :
    (run_merge ⟨bs, true⟩ src tgt0 now).1 = (run_merge ⟨bs, false⟩ src tgt0 now).1
      ∧ (run_merge ⟨bs, true⟩ src tgt0 now).2.1 = tgt0
      ∧ (run_merge ⟨bs, true⟩ src tgt0 now).2.2
          = [TxAction.beginSrc, TxAction.beginTgt, TxAction.rollbackTgt,
             TxAction.rollbackSrc] :=
  ⟨rfl, rfl, rfl⟩

/-- C6: derive_aspect_id maps the five portrait kinds (case-insensitively,
via uppercasing) to card-background and PASSNAME to sega-passname, and fails
with UnknownAspect exactly when the uppercased kind is none of those six —
including the empty kind. -/
theorem claim_C6 (kind : String) :
    ((py_upper kind = "BACKGROUND" ∨ py_upper kind = "FRAME"
        ∨ py_upper kind = "CHARACTER" ∨ py_upper kind = "MASK"
        ∨ py_upper kind = "LABEL") →
      derive_aspect_id kind = Except.ok "card-background")
      ∧ (py_upper kind = "PASSNAME" →
          derive_aspect_id kind = Except.ok "sega-passname")
      ∧ ((∃ msg, derive_aspect_id kind = Except.error msg) ↔
          ¬(py_upper kind = "BACKGROUND" ∨ py_upper kind = "FRAME"
            ∨ py_upper kind = "CHARACTER" ∨ py_upper kind = "MASK"
            ∨ py_upper kind = "LABEL" ∨ py_upper kind = "PASSNAME")) := by
  unfold derive_aspect_id KIND_TO_ASPECT
  split_ifs with h1 h2 h3 h4 h5 h6 <;> simp_all

/-- C8: for both upserts, a conflicting incoming row turns the statement
into a pure per-row update: every stored row under the conflict key is
overwritten with all of the incoming values except created_at, which keeps
the stored value, and rows under other keys are untouched. -/
theorem claim_C8 :
    (∀ (t : List UserRow) (e r : UserRow), r ∈ t → r.id = e.id →
        upsert_users t [e]
          = t.map (fun x =>
              if x.id = e.id then { e with created_at := x.created_at } else x))
      ∧ (∀ (t : List ImageRow) (e r : ImageRow), r ∈ t → r.uuid = e.uuid →
          upsert_images t [e]
            = t.map (fun x =>
                if x.uuid = e.uuid then { e with created_at := x.created_at }
                else x)) := by
  constructor
  · intro t e r hr hid
    show upsertOne UserRow.id userUpd t e = _
    unfold upsertOne
    rw [if_pos (List.any_eq_true.2 ⟨r, hr, by simp [hid]⟩)]
    rfl
  · intro t e r hr hid
    show upsertOne ImageRow.uuid imageUpd t e = _
    unfold upsertOne
    rw [if_pos (List.any_eq_true.2 ⟨r, hr, by simp [hid]⟩)]
    rfl

/-- C9: after merge_users, the tbl_user id sequence has been advanced to at
least every identifier present in tbl_user, and every migrated source
identifier is present in tbl_user; hence the next organically generated
identifier (user_id_seq + 1 under setval with is_called true) exceeds every
migrated identifier and cannot collide. -/
theorem claim_C9 (srcUsers : List SrcUser) (tgt : TargetDB) (bs : Nat)
    (now : Int) :
    (∀ r ∈ (merge_users srcUsers tgt bs now).2.tbl_user,
        r.id ≤ (merge_users srcUsers tgt bs now).2.user_id_seq)
      ∧ (∀ s ∈ srcUsers,
          ∃ r ∈ (merge_users srcUsers tgt bs now).2.tbl_user, r.id = s.id) := by
  constructor
  · intro r hr
    rw [merge_users_seq]
    exact sync_sequence_ge _ r hr
  · intro s hs
    have hmem := merge_users_ids_present srcUsers tgt bs now s hs
    obtain ⟨r, hrm, hid⟩ := List.mem_map.1 hmem
    exact ⟨r, hrm, hid⟩

/-- C10: a null legacy timestamp becomes the current UTC time of the
adaptation (never null, never an error), an aware timestamp is converted to
UTC and stripped of its offset, and a naive timestamp passes through
unchanged; both row adapters store exactly this value as created_at. -/
theorem claim_C10 (now : Int) :
    ensure_datetime now none = ⟨now, none⟩
      ∧ (∀ w off : Int, ensure_datetime now (some ⟨w, some off⟩) = ⟨w - off, none⟩)
      ∧ (∀ w : Int, ensure_datetime now (some ⟨w, none⟩) = ⟨w, none⟩)
      ∧ (∀ row : SrcUser,
          (adapt_user_row now row).created_at = ensure_datetime now row.created_at)
      ∧ (∀ (row : SrcImage) (aspect : String),
          (adapt_image_row row aspect now).created_at
            = ensure_datetime now row.uploaded_at) :=
  ⟨rfl, fun _ _ => rfl, fun _ => rfl, fun _ => rfl, fun _ _ => rfl⟩

/-- C1: every image row merge_images includes in an upsert batch carries an
owner drawn from the target-user membership set loaded at the start of the
image merge (the state the user merge left behind) and one of the two seeded
aspect identifiers; consequently every row of the resulting tbl_image is
either a pre-existing target row or satisfies that owner/aspect invariant —
no row with an absent owner or an unclassifiable kind is ever written. -/
theorem claim_C1 (srcImages : List SrcImage) (tgt : TargetDB) (bs : Nat)
    (now : Int) :
    (∀ e ∈ imageEntries (collect_existing_user_ids tgt.tbl_user) now srcImages,
        (∃ uid, uid ∈ collect_existing_user_ids tgt.tbl_user
            ∧ e.user_id = some uid)
          ∧ (e.aspect_id = "card-background" ∨ e.aspect_id = "sega-passname"))
      ∧ (∀ r ∈ (merge_images srcImages tgt bs now).2.tbl_image,
          r ∈ tgt.tbl_image
            ∨ ((∃ uid, uid ∈ collect_existing_user_ids tgt.tbl_user
                  ∧ r.user_id = some uid)
                ∧ (r.aspect_id = "card-background"
                    ∨ r.aspect_id = "sega-passname"))) := by
  have hQ : ∀ e ∈ imageEntries (collect_existing_user_ids tgt.tbl_user) now
      srcImages,
      (∃ uid, uid ∈ collect_existing_user_ids tgt.tbl_user
          ∧ e.user_id = some uid)
        ∧ (e.aspect_id = "card-background" ∨ e.aspect_id = "sega-passname") := by
    intro e he
    obtain ⟨row, _, hc⟩ := imageEntries_mem _ now srcImages e he
    exact classifyImageRow_write_fields _ now row e hc
  refine ⟨hQ, ?_⟩
  rw [merge_images_table]
  exact @upsertMany_old_or ImageRow String _ ImageRow.uuid imageUpd
    (fun e => (∃ uid, uid ∈ collect_existing_user_ids tgt.tbl_user
        ∧ e.user_id = some uid)
      ∧ (e.aspect_id = "card-background" ∨ e.aspect_id = "sega-passname"))
    (fun r e hQe => hQe) tgt.tbl_image _ hQ _ (fun r hr => Or.inl hr)

/-- C5: with the primary keys of the source tables distinct (they are
primary keys) and the same clock, re-running the full merge over the state a
completed run left behind yields exactly that state again, and the second
run reports zero inserted rows for users and for images. -/
theorem claim_C5 (src : SourceDB) (tgt0 : TargetDB) (bs : Nat) (now : Int)
    (hu : (src.users.map SrcUser.id).Nodup)
    (hi : (src.images.map SrcImage.uuid).Nodup) :
    (run_merge ⟨bs, false⟩ src ((run_merge ⟨bs, false⟩ src tgt0 now).2.1) now).2.1
        = (run_merge ⟨bs, false⟩ src tgt0 now).2.1
      ∧ ∃ res,
          (run_merge ⟨bs, false⟩ src ((run_merge ⟨bs, false⟩ src tgt0 now).2.1)
              now).1 = Except.ok res
            ∧ res.users.inserted = 0 ∧ res.images.inserted = 0 := by
  set t1 := (run_merge ⟨bs, false⟩ src tgt0 now).2.1 with ht1
  have h := second_run_fixes src tgt0 bs now hu hi t1
    (by rw [ht1, run_merge_false_eval])
  rw [run_merge_false_eval bs src t1 now]
  constructor
  · show (merge_images src.images (merge_users src.users t1 bs now).2 bs now).2
        = t1
    rw [h.1]
    exact h.2.2.1
  · refine ⟨⟨(merge_users src.users t1 bs now).1,
      (merge_images src.images (merge_users src.users t1 bs now).2 bs now).1⟩,
      rfl, h.2.1, ?_⟩
    show (merge_images src.images (merge_users src.users t1 bs now).2 bs
        now).1.inserted = 0
    rw [h.1]
    exact h.2.2.2

/-- C7: build_image_labels computes exactly the list the specification
describes — the lowercased kind when non-empty, then the lowercased trimmed
category when non-empty after trimming, with the single sentinel element
when both contribute nothing — and the result is never empty. -/
theorem claim_C7 (kind : String) (category : Option String) :
    build_image_labels kind category = buildLabelsSpec kind category
      ∧ build_image_labels kind category ≠ [] := by
  have htrim : py_strip "" = "" := by decide
  have heq : build_image_labels kind category = buildLabelsSpec kind category := by
    unfold build_image_labels buildLabelsSpec
    by_cases hk : kind = ""
    · cases category with
      | none => simp [hk, htrim]
      | some c =>
        by_cases hc : c = ""
        · simp [hk, hc, htrim]
        · by_cases hct : py_strip c = ""
          · simp [hk, hc, hct]
          · simp [hk, hc, hct]
    · cases category with
      | none => simp [hk, htrim]
      | some c =>
        by_cases hc : c = ""
        · simp [hk, hc, htrim]
        · by_cases hct : py_strip c = ""
          · simp [hk, hc, hct]
          · simp [hk, hc, hct]
  refine ⟨heq, ?_⟩
  rw [heq]
  unfold buildLabelsSpec
  by_cases hb : ((if kind = "" then ([] : List String) else [py_lower kind])
      ++ (match category with
          | none => ([] : List String)
          | some c => if py_strip c = "" then [] else [py_lower (py_strip c)]))
        = []
  · simp only [hb]
    simp
  · simp only [if_neg hb]
    exact hb

/-! ## Witnesses -/

theorem claim_C1_witness :
    adapt_image_row ⟨"a", "MASK", none, "f", some 1, none, none, none⟩
        "card-background" 0
      ∈ (⟨[⟨1, "u", "p", none, ["NORMAL"], ⟨0, none⟩, ⟨0, none⟩⟩], [], [], 0⟩ :
          TargetDB).tbl_image
    ∨ ((∃ uid, uid ∈ collect_existing_user_ids
          (⟨[⟨1, "u", "p", none, ["NORMAL"], ⟨0, none⟩, ⟨0, none⟩⟩], [], [], 0⟩ :
            TargetDB).tbl_user
        ∧ (adapt_image_row ⟨"a", "MASK", none, "f", some 1, none, none, none⟩
            "card-background" 0).user_id = some uid)
      ∧ ((adapt_image_row ⟨"a", "MASK", none, "f", some 1, none, none, none⟩
            "card-background" 0).aspect_id = "card-background"
        ∨ (adapt_image_row ⟨"a", "MASK", none, "f", some 1, none, none, none⟩
            "card-background" 0).aspect_id = "sega-passname")) :=
  (claim_C1 [⟨"a", "MASK", none, "f", some 1, none, none, none⟩]
    ⟨[⟨1, "u", "p", none, ["NORMAL"], ⟨0, none⟩, ⟨0, none⟩⟩], [], [], 0⟩ 500 0).2
    (adapt_image_row ⟨"a", "MASK", none, "f", some 1, none, none, none⟩
      "card-background" 0)
    (by decide)

theorem claim_C2_witness :
    classifyImageRow [] 0 ⟨"a", "weird", none, "f", none, none, none, none⟩
        = ImageRowDecision.skipNoUploader
      ∧ mergeImagesLoop [] 500 0
          [⟨"a", "weird", none, "f", none, none, none, none⟩]
          ⟨[], [], [], ⟨0, 0, 0, 0⟩⟩
        = mergeImagesLoop [] 500 0 [] ⟨[], [], [], ⟨1, 0, 0, 1⟩⟩ :=
  ⟨(claim_C2 [] 500 0 ⟨"a", "weird", none, "f", none, none, none, none⟩ []
      ⟨[], [], [], ⟨0, 0, 0, 0⟩⟩).1 rfl,
   (claim_C2 [] 500 0 ⟨"a", "weird", none, "f", none, none, none, none⟩ []
      ⟨[], [], [], ⟨0, 0, 0, 0⟩⟩).2.2.2 (by decide)⟩

theorem claim_C3_witness :
    run_mergeWith false (⟨[], [], [], 0⟩ : TargetDB)
        (fun _ => Except.error 7)
        (fun t => Except.ok (⟨0, 0, 0, 0⟩, t))
      = (Except.error 7, (⟨[], [], [], 0⟩ : TargetDB),
          [TxAction.beginSrc, TxAction.beginTgt, TxAction.rollbackTgt,
           TxAction.rollbackSrc]) :=
  (claim_C3 false ⟨[], [], [], 0⟩ (fun _ => Except.error 7)
    (fun t => Except.ok (⟨0, 0, 0, 0⟩, t))).1 7 rfl

theorem claim_C5_witness :
    (run_merge ⟨1, false⟩
        ⟨[⟨1, "u", "p", none⟩],
         [⟨"a", "PASSNAME", none, "f", some 1, none, none, none⟩]⟩
        ((run_merge ⟨1, false⟩
            ⟨[⟨1, "u", "p", none⟩],
             [⟨"a", "PASSNAME", none, "f", some 1, none, none, none⟩]⟩
            ⟨[], [], [], 0⟩ 0).2.1) 0).2.1
      = (run_merge ⟨1, false⟩
          ⟨[⟨1, "u", "p", none⟩],
           [⟨"a", "PASSNAME", none, "f", some 1, none, none, none⟩]⟩
          ⟨[], [], [], 0⟩ 0).2.1
    ∧ ∃ res,
        (run_merge ⟨1, false⟩
            ⟨[⟨1, "u", "p", none⟩],
             [⟨"a", "PASSNAME", none, "f", some 1, none, none, none⟩]⟩
            ((run_merge ⟨1, false⟩
                ⟨[⟨1, "u", "p", none⟩],
                 [⟨"a", "PASSNAME", none, "f", some 1, none, none, none⟩]⟩
                ⟨[], [], [], 0⟩ 0).2.1) 0).1 = Except.ok res
          ∧ res.users.inserted = 0 ∧ res.images.inserted = 0 :=
  claim_C5
    ⟨[⟨1, "u", "p", none⟩],
     [⟨"a", "PASSNAME", none, "f", some 1, none, none, none⟩]⟩
    ⟨[], [], [], 0⟩ 1 0 (by decide) (by decide)

theorem claim_C6_witness :
    derive_aspect_id "background" = Except.ok "card-background"
      ∧ (∃ msg, derive_aspect_id "" = Except.error msg) :=
  ⟨(claim_C6 "background").1 (by decide), (claim_C6 "").2.2.mpr (by decide)⟩

theorem claim_C7_witness :
    build_image_labels "" (some " ") = buildLabelsSpec "" (some " ")
      ∧ build_image_labels "" (some " ") ≠ [] :=
  claim_C7 "" (some " ")

theorem claim_C8_witness :
    upsert_users [⟨1, "old", "po", none, ["NORMAL"], ⟨5, none⟩, ⟨5, none⟩⟩]
        [⟨1, "new", "pn", none, ["NORMAL"], ⟨9, none⟩, ⟨9, none⟩⟩]
      = [(⟨1, "old", "po", none, ["NORMAL"], ⟨5, none⟩, ⟨5, none⟩⟩ : UserRow)].map
          (fun x =>
            if x.id = (⟨1, "new", "pn", none, ["NORMAL"], ⟨9, none⟩, ⟨9, none⟩⟩ :
                UserRow).id then
              { (⟨1, "new", "pn", none, ["NORMAL"], ⟨9, none⟩, ⟨9, none⟩⟩ :
                  UserRow) with created_at := x.created_at }
            else x) :=
  claim_C8.1 [⟨1, "old", "po", none, ["NORMAL"], ⟨5, none⟩, ⟨5, none⟩⟩]
    ⟨1, "new", "pn", none, ["NORMAL"], ⟨9, none⟩, ⟨9, none⟩⟩
    ⟨1, "old", "po", none, ["NORMAL"], ⟨5, none⟩, ⟨5, none⟩⟩
    (by decide) (by decide)

theorem claim_C9_witness :
    (adapt_user_row 0 ⟨5, "u", "p", none⟩).id
      ≤ (merge_users [⟨5, "u", "p", none⟩] ⟨[], [], [], 0⟩ 500 0).2.user_id_seq :=
  (claim_C9 [⟨5, "u", "p", none⟩] ⟨[], [], [], 0⟩ 500 0).1
    (adapt_user_row 0 ⟨5, "u", "p", none⟩) (by decide)
